import Mathlib

/-!
Verification of the console/flag framework in `src/console.py` against its
natural-language specification.

The Python source is shallowly embedded: each relevant class attribute and
method is translated into a Lean definition with the same name where possible.
Handlers (Python callables) are modelled as optional handler identifiers
(`Option Nat`): the dispatch engine only stores and invokes them, so their
identity is all that matters.  Python `int()` / `float()` coercions on
whitespace-free tokens are modelled over `Int` and `Rat` (a Python float
parse of a short decimal literal such as "42" is exact).
-/

namespace ConsoleSpec

/-! ## Flag input kind constants (console.py lines 26-29) -/

def FLAG_INPUT_IGNORE : Int := 0
def FLAG_INPUT_STR : Int := 1
def FLAG_INPUT_INT : Int := 2
def FLAG_INPUT_FLOAT : Int := 3

/-! ## Data model -/

/-- One entry of `Command.available_flags`
    (the dict built in `Command.add_flag`, lines 338-340). -/
structure FlagSpec where
  longf : String
  shortf : Option String
  description : String
  input : Int
  method : Option Nat
deriving Repr, DecidableEq

/-- The coerced input value carried by an activation
    (`input_value` in `parse_line`, lines 1283-1310).  Python `float` values
    arising from the parse of plain decimal tokens are represented exactly as
    rationals. -/
inductive FlagValue where
  | none
  | str (s : String)
  | int (n : Int)
  | float (q : Rat)
deriving Repr, DecidableEq

/-- One entry of `_Console_Parser.active_flags`
    (the `flag_dict` built at lines 1312-1313; its `input` key holds the
    resolved value). -/
structure ActiveFlag where
  longf : String
  description : String
  input : FlagValue
  method : Option Nat
deriving Repr, DecidableEq

/-- Errors raised by `parse_line` (`InputError` at lines 1293 and 1303/1309):
    a flag requiring input is last on the line, or its input token fails
    numeric coercion. -/
inductive ParseError where
  | missingFlagInput (flag : String) (expected : String)
  | invalidFlagInput (token : String) (flag : String) (expected : String)
deriving Repr, DecidableEq

/-- The mutable accumulation state of `_Console_Parser.parse_line`
    (`self.active_flags` and `self.additional_args`, lines 1260-1261). -/
structure ParserState where
  active_flags : List ActiveFlag
  additional_args : List String
deriving Repr, DecidableEq

/-- Getter `_Console_Parser.get_active_flags` (lines 1236-1244). -/
def get_active_flags (st : ParserState) : List ActiveFlag :=
  st.active_flags

/-- Getter `_Console_Parser.get_additional_args` (lines 1246-1255). -/
def get_additional_args (st : ParserState) : List String :=
  st.additional_args

/-! ## Python numeric coercions -/

/-- Value of a nonempty all-digit character list; `none` otherwise. -/
def digitsToNat (cs : List Char) : Option Nat :=
  if cs.isEmpty then Option.none
  else if cs.all Char.isDigit then
    Option.some (cs.foldl (fun acc c => acc * 10 + (c.toNat - 48)) 0)
  else Option.none

/-- Model of Python `int(token)` for a whitespace-free token: an optional
    sign followed by one or more decimal digits. -/
def pyInt (s : String) : Option Int :=
  match s.toList with
  | '-' :: cs => (digitsToNat cs).map (fun n => -(n : Int))
  | '+' :: cs => (digitsToNat cs).map (fun n => (n : Int))
  | cs => (digitsToNat cs).map (fun n => (n : Int))

/-- Unsigned decimal core of a Python `float` literal:
    digits, or digits '.' digits with at least one digit present. -/
def pyFloatCore (cs : List Char) : Option Rat :=
  match cs.span Char.isDigit with
  | (ds, []) =>
      if ds.isEmpty then Option.none
      else Option.some ((ds.foldl (fun acc c => acc * 10 + (c.toNat - 48)) 0 : Nat) : Rat)
  | (ds, '.' :: fs) =>
      if fs.all Char.isDigit && !(ds.isEmpty && fs.isEmpty) then
        Option.some
          (((ds.foldl (fun acc c => acc * 10 + (c.toNat - 48)) 0 : Nat) : Rat)
            + ((fs.foldl (fun acc c => acc * 10 + (c.toNat - 48)) 0 : Nat) : Rat)
              / ((10 : Rat) ^ fs.length))
      else Option.none
  | _ => Option.none

/-- Model of Python `float(token)` for a whitespace-free decimal token
    (exponent forms are not needed by any claim): optional sign then the
    unsigned decimal core. -/
def pyFloat (s : String) : Option Rat :=
  match s.toList with
  | '-' :: cs => (pyFloatCore cs).map (fun q => -q)
  | '+' :: cs => pyFloatCore cs
  | cs => pyFloatCore cs

/-! ## The parser (`_Console_Parser.parse_line`, lines 1257-1322) -/

/-- The expected-kind name used in the `MissingFlagInput` message
    (lines 1286-1292): defaults to "string", overwritten for kinds 1-3. -/
def inputTypeName (i : Int) : String :=
  if i == FLAG_INPUT_STR then "str"
  else if i == FLAG_INPUT_INT then "int"
  else if i == FLAG_INPUT_FLOAT then "float"
  else "string"

/-- The inner scan over `command.available_flags` (lines 1272-1280): the
    token is compared with each entry's `longf` then `shortf`, in registry
    order; the first structural match wins.  A `shortf` of `None` never
    matches a string token. -/
def findFlag : List FlagSpec → String → Option FlagSpec
  | [], _ => Option.none
  | m :: rest, tok =>
    if tok == m.longf then Option.some m
    else if Option.some tok == m.shortf then Option.some m
    else findFlag rest tok

/-- `list.remove` of the first dict with the given `longf`
    (the sanity-check loop, lines 1315-1318). -/
def removeFirstLongf : List ActiveFlag → String → List ActiveFlag
  | [], _ => []
  | d :: rest, l => if d.longf == l then rest else d :: removeFirstLongf rest l

/-- Recording an activation (lines 1314-1319): any prior entry with the same
    `longf` is removed, then the new dict is appended at the end. -/
def recordFlag (acc : List ActiveFlag) (d : ActiveFlag) : List ActiveFlag :=
  removeFirstLongf acc d.longf ++ [d]

/-- Coercion of the consumed input token per the flag's kind
    (lines 1296-1310).  A kind above `FLAG_INPUT_IGNORE` that is none of
    str/int/float consumes the token but leaves `input_value` at `None`,
    exactly as the source's if/elif chain does. -/
def coerceInput (m : FlagSpec) (tok flagName : String) : Except ParseError FlagValue :=
  if m.input == FLAG_INPUT_STR then .ok (.str tok)
  else if m.input == FLAG_INPUT_INT then
    match pyInt tok with
    | Option.some n => .ok (.int n)
    | Option.none => .error (.invalidFlagInput tok flagName "int")
  else if m.input == FLAG_INPUT_FLOAT then
    match pyFloat tok with
    | Option.some q => .ok (.float q)
    | Option.none => .error (.invalidFlagInput tok flagName "float")
  else .ok .none

/-- The main `while index < len(inputlist)` loop of `parse_line`
    (lines 1267-1322).  The returned pair is the final parser state together
    with the raised `InputError`, if any: on an error the source raises out
    of the loop, leaving whatever `self.active_flags` / `self.additional_args`
    had accumulated so far — hence the state is returned in both cases. -/
def parseLoop (flags : List FlagSpec) : List String → ParserState → ParserState × Option ParseError
  | [], st => (st, Option.none)
  | tok :: rest, st =>
    match findFlag flags tok with
    | Option.none =>
        parseLoop flags rest ⟨st.active_flags, st.additional_args ++ [tok]⟩
    | Option.some m =>
      if m.input > FLAG_INPUT_IGNORE then
        match rest with
        | [] => (st, Option.some (.missingFlagInput tok (inputTypeName m.input)))
        | v :: rest2 =>
          match coerceInput m v tok with
          | .error e => (st, Option.some e)
          | .ok val =>
              parseLoop flags rest2
                ⟨recordFlag st.active_flags ⟨m.longf, m.description, val, m.method⟩,
                 st.additional_args⟩
      else
        parseLoop flags rest
          ⟨recordFlag st.active_flags ⟨m.longf, m.description, .none, m.method⟩,
           st.additional_args⟩

/-- `_Console_Parser._precheck_input` for list input (lines 1226-1230): the
    leading token is dropped when it equals the stored program name.  The
    source indexes `input[0]`, which raises `IndexError` on an empty list;
    that case is returned as `none`. -/
def precheckInput (program_name : String) (input : List String) : Option (List String) :=
  match input with
  | [] => Option.none
  | t :: rest => Option.some (if t == program_name then rest else t :: rest)

/-- `_Console_Parser.parse_line` on an already-tokenized input list
    (lines 1257-1322): precheck, optional command-token strip, then the
    scanning loop starting from freshly reset state. -/
def parse_line (program_name : String) (flags : List FlagSpec) (input : List String)
    (is_command : Bool) : Option (ParserState × Option ParseError) :=
  (precheckInput program_name input).map fun inputlist =>
    parseLoop flags (if is_command then inputlist.drop 1 else inputlist) ⟨[], []⟩

/-! ## Flag registration (`Command.add_flag`, lines 313-340) -/

/-- Failures of `Command.add_flag`: the `TypeError` raised when the
    normalized short flag is not of length two (line 336), and the
    `IndexError` raised by `shortf[0]` on an empty short flag (line 333). -/
inductive AddFlagError where
  | invalidShortf
  | indexError
deriving Repr, DecidableEq

/-- `Command.add_flag` (lines 313-340), producing the dict that is appended
    to `available_flags`.  The Python type assertions on str/int/callable
    arguments (lines 318-329) are enforced by the Lean types.  `longf` gets
    "--" prepended when its first two characters are not "--"; `shortf` gets
    "-" prepended when its first character is not '-', and must then have
    length exactly two. -/
def add_flag (longf : String) (shortf : Option String) (description : String)
    (input : Int) (method : Option Nat) : Except AddFlagError FlagSpec :=
  let longf := if String.take longf 2 != "--" then "--" ++ longf else longf
  match shortf with
  | Option.none => .ok ⟨longf, Option.none, description, input, method⟩
  | Option.some s =>
    if s.length == 0 then .error .indexError
    else
      let s := if s.front != '-' then "-" ++ s else s
      if s.length != 2 then .error .invalidShortf
      else .ok ⟨longf, Option.some s, description, input, method⟩

/-- Appending a freshly validated flag to a registry (line 340). -/
def Command_add_flag (flags : List FlagSpec) (longf : String) (shortf : Option String)
    (description : String) (input : Int) (method : Option Nat) :
    Except AddFlagError (List FlagSpec) :=
  (add_flag longf shortf description input method).map (fun f => flags ++ [f])

/-- Identifier standing for the bound method `Command._command_help`. -/
def HELP_METHOD : Nat := 0

/-- The built-in help entry every `Command.__init__` registers first
    (lines 309-310), after `add_flag` normalization. -/
def helpFlag : FlagSpec :=
  ⟨"--help", Option.some "-h", "Display available flag options", FLAG_INPUT_IGNORE,
    Option.some HELP_METHOD⟩

/-- The flag registry right after `Command.__init__` (lines 305-310):
    `available_flags` starts empty and the help flag is added through
    `add_flag("help", "h", ...)`. -/
def commandInitFlags : List FlagSpec :=
  match add_flag "help" (Option.some "h") "Display available flag options"
      FLAG_INPUT_IGNORE (Option.some HELP_METHOD) with
  | .ok f => [f]
  | .error _ => []

/-! ## Dispatch events -/

/-- Observable handler invocations and process exit, in the order the
    dispatch engine performs them. -/
inductive Event where
  | helpInvoked (handlerId : Nat)
  | flagHandlerInvoked (longf : String) (handlerId : Nat)
  | defaultHandlerInvoked (longf : String)
  | primaryInvoked (commandName : String)
  | processExit (code : Nat)
deriving Repr, DecidableEq

/-! ## Startup flag processing (`Console._terminal_process_flags`, lines 661-723) -/

/-- The `exit_map` computed by the scan at lines 687-694: the loop does not
    break, so the last active entry with `longf == "--help"` is kept. -/
def lastHelpEntry (active : List ActiveFlag) : Option ActiveFlag :=
  active.foldl (fun acc m => if m.longf == "--help" then Option.some m else acc) Option.none

/-- The handler-invocation part of `_terminal_process_flags` after parsing
    (lines 687-723).  The `--log`/`--verbose`/`--debug` cases of the same
    scan only assign logging levels to the out-of-scope
    `Display_Information` collaborator and produce no handler invocation, so
    they contribute no event.  When `exit_map` is set, `exit_map["method"]()`
    runs and then `sys.exit()` terminates the process with status 0
    (lines 707-709) before the flag-handler loop at lines 717-723 is
    reached; that loop falls back to `default_flag_handler` for activations
    without a method (lines 720-723).  Calling a `None` method would raise
    `TypeError`, reported as the error component. -/
def terminalDispatch (active : List ActiveFlag) : Except String (List Event) :=
  match lastHelpEntry active with
  | Option.some m =>
    match m.method with
    | Option.some h => .ok [Event.helpInvoked h, Event.processExit 0]
    | Option.none => .error "TypeError: NoneType object is not callable"
  | Option.none =>
    .ok (active.map fun m =>
      match m.method with
      | Option.some h => Event.flagHandlerInvoked m.longf h
      | Option.none => Event.defaultHandlerInvoked m.longf)

/-! ## One-shot startup guard (lines 558-564 and 640-674) -/

/-- The guard-relevant slice of `Console` state: the terminal `Command`'s
    registry and the `_processed_flag_options` boolean (line 438). -/
structure ConsoleState where
  terminal_flags : List FlagSpec
  processed_flag_options : Bool
deriving Repr, DecidableEq

/-- Errors of the guarded terminal operations: the `CallError` raised on
    re-entry after startup processing, or a flag-validation failure
    forwarded from `Command.add_flag`. -/
inductive TerminalError where
  | alreadyProcessed
  | flagError (e : AddFlagError)
deriving Repr, DecidableEq

/-- `Console.terminal_process_flags` (lines 640-659) composed with the state
    transition its private worker performs first (line 669:
    `self._processed_flag_options = True`).  The parsing and handler
    dispatch the worker then performs are modelled separately by
    `parse_line` and `terminalDispatch`. -/
def terminal_process_flags (st : ConsoleState) : Except TerminalError ConsoleState :=
  if st.processed_flag_options then .error .alreadyProcessed
  else .ok { st with processed_flag_options := true }

/-- `Console.terminal_add_flag` (lines 532-564): guarded append to the
    terminal `Command`'s registry. -/
def terminal_add_flag (st : ConsoleState) (longf : String) (shortf : Option String)
    (description : String) (input : Int) (method : Option Nat) :
    Except TerminalError ConsoleState :=
  if st.processed_flag_options then .error .alreadyProcessed
  else
    match Command_add_flag st.terminal_flags longf shortf description input method with
    | .ok fs => .ok { st with terminal_flags := fs }
    | .error e => .error (.flagError e)

/-! ## Console loop dispatch (`Console_Program.run`, lines 809-871) -/

/-- The flag-handler loop of `run` for one matched command line
    (lines 847-850): each activation's `method` is called directly —
    there is no fallback to `Console.default_flag_handler` here, so an
    activation whose `method` is `None` raises
    `TypeError: NoneType object is not callable`.  The result is the list of
    invocations performed before any such crash, plus the error if one
    occurred. -/
def runFlagHandlers : List ActiveFlag → List Event × Option String
  | [] => ([], Option.none)
  | m :: rest =>
    match m.method with
    | Option.none => ([], Option.some "TypeError: NoneType object is not callable")
    | Option.some h =>
      let r := runFlagHandlers rest
      (Event.flagHandlerInvoked m.longf h :: r.1, r.2)

/-- Dispatch of one matched console line after a successful parse
    (lines 833-852): if some activation has `longf == "--help"`, the first
    such entry's method runs and the loop continues (lines 838-845);
    otherwise every activation's method runs in `active_flags` order and
    then `command.method()` runs once (lines 847-852). -/
def consoleDispatch (commandName : String) (active : List ActiveFlag) :
    List Event × Option String :=
  match active.find? (fun m => m.longf == "--help") with
  | Option.some m =>
    match m.method with
    | Option.some h => ([Event.helpInvoked h], Option.none)
    | Option.none => ([], Option.some "TypeError: NoneType object is not callable")
  | Option.none =>
    let r := runFlagHandlers active
    match r.2 with
    | Option.some e => (r.1, Option.some e)
    | Option.none => (r.1 ++ [Event.primaryInvoked commandName], Option.none)

/-! ## Console start (`Console.console_start`, lines 486-505) -/

/-- What `console_start` does with the constructed `Console_Program`. -/
inductive StartMode where
  | startedThread (daemon : Bool)
  | ranInline
deriving Repr, DecidableEq

/-- `Console.console_start` (lines 486-505): in threaded mode the worker's
    daemon attribute is set and the thread is started, otherwise `run()` is
    invoked inline.  The method body contains no `return` statement, so the
    call evaluates to Python `None` in every branch; the second component is
    that returned value. -/
def console_start (threaded daemon : Bool) : StartMode × Option Nat :=
  if threaded then (.startedThread daemon, Option.none) else (.ranInline, Option.none)

/-! ## Spec-side definitions for the activation-order refinement (claim C1) -/

/-- Modelled from the spec's words (§4.2 step 6): the activations a parse
    records, in left-to-right occurrence order.  This mirrors the token walk
    of `parseLoop` but keeps every recorded activation instead of
    deduplicating; it is the sequence the spec's override rule is stated
    over. -/
def activationsInOrder (flags : List FlagSpec) : List String → List ActiveFlag
  | [] => []
  | tok :: rest =>
    match findFlag flags tok with
    | Option.none => activationsInOrder flags rest
    | Option.some m =>
      if m.input > FLAG_INPUT_IGNORE then
        match rest with
        | [] => []
        | v :: rest2 =>
          match coerceInput m v tok with
          | .error _ => []
          | .ok val => ⟨m.longf, m.description, val, m.method⟩ :: activationsInOrder flags rest2
      else
        ⟨m.longf, m.description, .none, m.method⟩ :: activationsInOrder flags rest

/-- Modelled from the spec's words (§4.2 step 6): keep each `longf`'s most
    recent occurrence only, in order of most recent occurrence. -/
def mostRecentOccurrenceOrder : List ActiveFlag → List ActiveFlag
  | [] => []
  | d :: rest =>
    if rest.any (fun e => e.longf == d.longf) then mostRecentOccurrenceOrder rest
    else d :: mostRecentOccurrenceOrder rest

/-! ## Step equations for `parseLoop` and `activationsInOrder` -/

theorem parseLoop_nil (flags : List FlagSpec) (st : ParserState) :
    parseLoop flags [] st = (st, Option.none) := rfl

theorem parseLoop_cons_nomatch (flags : List FlagSpec) (tok : String) (rest : List String)
    (st : ParserState) (h : findFlag flags tok = Option.none) :
    parseLoop flags (tok :: rest) st =
      parseLoop flags rest ⟨st.active_flags, st.additional_args ++ [tok]⟩ := by
  simp [parseLoop, h]

theorem parseLoop_cons_noinput (flags : List FlagSpec) (tok : String) (rest : List String)
    (st : ParserState) (m : FlagSpec) (h : findFlag flags tok = Option.some m)
    (hi : ¬ m.input > FLAG_INPUT_IGNORE) :
    parseLoop flags (tok :: rest) st =
      parseLoop flags rest
        ⟨recordFlag st.active_flags ⟨m.longf, m.description, .none, m.method⟩,
         st.additional_args⟩ := by
  simp [parseLoop, h, hi]

theorem parseLoop_cons_missing (flags : List FlagSpec) (tok : String)
    (st : ParserState) (m : FlagSpec) (h : findFlag flags tok = Option.some m)
    (hi : m.input > FLAG_INPUT_IGNORE) :
    parseLoop flags [tok] st =
      (st, Option.some (.missingFlagInput tok (inputTypeName m.input))) := by
  simp [parseLoop, h, hi]

theorem parseLoop_cons_coerce_error (flags : List FlagSpec) (tok v : String)
    (rest2 : List String) (st : ParserState) (m : FlagSpec) (e : ParseError)
    (h : findFlag flags tok = Option.some m) (hi : m.input > FLAG_INPUT_IGNORE)
    (hc : coerceInput m v tok = .error e) :
    parseLoop flags (tok :: v :: rest2) st = (st, Option.some e) := by
  simp [parseLoop, h, hi, hc]

theorem parseLoop_cons_coerce_ok (flags : List FlagSpec) (tok v : String)
    (rest2 : List String) (st : ParserState) (m : FlagSpec) (val : FlagValue)
    (h : findFlag flags tok = Option.some m) (hi : m.input > FLAG_INPUT_IGNORE)
    (hc : coerceInput m v tok = .ok val) :
    parseLoop flags (tok :: v :: rest2) st =
      parseLoop flags rest2
        ⟨recordFlag st.active_flags ⟨m.longf, m.description, val, m.method⟩,
         st.additional_args⟩ := by
  simp [parseLoop, h, hi, hc]

theorem activationsInOrder_cons_nomatch (flags : List FlagSpec) (tok : String)
    (rest : List String) (h : findFlag flags tok = Option.none) :
    activationsInOrder flags (tok :: rest) = activationsInOrder flags rest := by
  simp [activationsInOrder, h]

theorem activationsInOrder_cons_noinput (flags : List FlagSpec) (tok : String)
    (rest : List String) (m : FlagSpec) (h : findFlag flags tok = Option.some m)
    (hi : ¬ m.input > FLAG_INPUT_IGNORE) :
    activationsInOrder flags (tok :: rest) =
      ⟨m.longf, m.description, .none, m.method⟩ :: activationsInOrder flags rest := by
  simp [activationsInOrder, h, hi]

theorem activationsInOrder_cons_coerce_ok (flags : List FlagSpec) (tok v : String)
    (rest2 : List String) (m : FlagSpec) (val : FlagValue)
    (h : findFlag flags tok = Option.some m) (hi : m.input > FLAG_INPUT_IGNORE)
    (hc : coerceInput m v tok = .ok val) :
    activationsInOrder flags (tok :: v :: rest2) =
      ⟨m.longf, m.description, val, m.method⟩ :: activationsInOrder flags rest2 := by
  simp [activationsInOrder, h, hi, hc]

/-! ## The successful parse accumulates activations by `recordFlag` -/

theorem parseLoop_active_foldl (flags : List FlagSpec) :
    ∀ (l : List String) (st st'' : ParserState),
      parseLoop flags l st = (st'', Option.none) →
      st''.active_flags = List.foldl recordFlag st.active_flags (activationsInOrder flags l) := by
  have H : ∀ (n : Nat) (l : List String) (st st'' : ParserState), l.length ≤ n →
      parseLoop flags l st = (st'', Option.none) →
      st''.active_flags = List.foldl recordFlag st.active_flags (activationsInOrder flags l) := by
    intro n
    induction n with
    | zero =>
      intro l st st'' hlen hp
      have hl : l = [] := List.eq_nil_of_length_eq_zero (Nat.le_zero.mp hlen)
      subst hl
      rw [parseLoop_nil] at hp
      cases hp
      simp [activationsInOrder]
    | succ n ih =>
      intro l st st'' hlen hp
      match l with
      | [] =>
        rw [parseLoop_nil] at hp
        cases hp
        simp [activationsInOrder]
      | tok :: rest =>
        cases hfind : findFlag flags tok with
        | none =>
          rw [parseLoop_cons_nomatch flags tok rest st hfind] at hp
          rw [activationsInOrder_cons_nomatch flags tok rest hfind]
          exact ih rest ⟨st.active_flags, st.additional_args ++ [tok]⟩ st''
            (Nat.le_of_succ_le_succ hlen) hp
        | some m =>
          by_cases hi : m.input > FLAG_INPUT_IGNORE
          · match rest with
            | [] =>
              rw [parseLoop_cons_missing flags tok st m hfind hi] at hp
              exact absurd (congrArg Prod.snd hp) (by simp)
            | v :: rest2 =>
              cases hc : coerceInput m v tok with
              | error e =>
                rw [parseLoop_cons_coerce_error flags tok v rest2 st m e hfind hi hc] at hp
                exact absurd (congrArg Prod.snd hp) (by simp)
              | ok val =>
                rw [parseLoop_cons_coerce_ok flags tok v rest2 st m val hfind hi hc] at hp
                rw [activationsInOrder_cons_coerce_ok flags tok v rest2 m val hfind hi hc]
                have hlen2 : rest2.length ≤ n := by
                  simp only [List.length_cons] at hlen
                  omega
                rw [List.foldl_cons]
                exact ih rest2 _ st'' hlen2 hp
          · rw [parseLoop_cons_noinput flags tok rest st m hfind hi] at hp
            rw [activationsInOrder_cons_noinput flags tok rest m hfind hi]
            rw [List.foldl_cons]
            exact ih rest _ st'' (Nat.le_of_succ_le_succ hlen) hp
  intro l st st'' hp
  exact H l.length l st st'' (Nat.le_refl _) hp

/-! ## Deduplication lemmas -/

/-- The `longf` keys of an activation list. -/
def longfs (l : List ActiveFlag) : List String :=
  l.map (fun d => d.longf)

theorem removeFirstLongf_of_nodup (s : String) :
    ∀ acc : List ActiveFlag, (longfs acc).Nodup →
      removeFirstLongf acc s = acc.filter (fun d => d.longf != s) := by
  intro acc
  induction acc with
  | nil => intro _; rfl
  | cons d acc' ih =>
    intro hnd
    rw [longfs, List.map_cons, List.nodup_cons] at hnd
    by_cases hd : d.longf = s
    · have hrm : removeFirstLongf (d :: acc') s = acc' := by
        simp [removeFirstLongf, hd]
      rw [hrm, List.filter_cons]
      have hpd : (d.longf != s) = false := by simp [hd]
      rw [hpd]
      simp only [Bool.false_eq_true, if_false]
      refine (List.filter_eq_self.mpr ?_).symm
      intro a ha
      have : a.longf ∈ longfs acc' := List.mem_map_of_mem _ ha
      have hne : a.longf ≠ d.longf := fun hEq => hnd.1 (hEq ▸ this)
      simp [hd ▸ hne]
    · have hrm : removeFirstLongf (d :: acc') s = d :: removeFirstLongf acc' s := by
        simp [removeFirstLongf, hd]
      rw [hrm, List.filter_cons]
      have hpd : (d.longf != s) = true := by simp [hd]
      rw [hpd]
      simp only [if_true]
      rw [ih hnd.2]

theorem longfs_append (l₁ l₂ : List ActiveFlag) :
    longfs (l₁ ++ l₂) = longfs l₁ ++ longfs l₂ := by
  simp [longfs]

theorem nodup_longfs_recordFlag (acc : List ActiveFlag) (d : ActiveFlag)
    (hnd : (longfs acc).Nodup) : (longfs (recordFlag acc d)).Nodup := by
  rw [recordFlag, removeFirstLongf_of_nodup d.longf acc hnd, longfs_append]
  rw [List.nodup_append]
  refine ⟨?_, List.nodup_singleton _, ?_⟩
  · simp only [longfs] at hnd ⊢
    exact List.Nodup.sublist ((List.filter_sublist acc).map _) hnd
  · intro x hx hy
    simp only [longfs, List.map_cons, List.map_nil, List.mem_singleton] at hy
    subst hy
    obtain ⟨a, ha, haeq⟩ := List.mem_map.mp hx
    have := List.of_mem_filter ha
    rw [haeq] at this
    simp at this

theorem foldl_recordFlag :
    ∀ (seq acc : List ActiveFlag), (longfs acc).Nodup →
      List.foldl recordFlag acc seq =
        acc.filter (fun d => !(seq.any (fun e => e.longf == d.longf))) ++
          mostRecentOccurrenceOrder seq := by
  intro seq
  induction seq with
  | nil =>
    intro acc _
    simp [mostRecentOccurrenceOrder]
  | cons d rest ih =>
    intro acc hnd
    rw [List.foldl_cons, ih (recordFlag acc d) (nodup_longfs_recordFlag acc d hnd)]
    rw [recordFlag, removeFirstLongf_of_nodup d.longf acc hnd]
    rw [List.filter_append, List.filter_filter]
    by_cases hb : rest.any (fun e => e.longf == d.longf) = true
    · have hmro : mostRecentOccurrenceOrder (d :: rest) = mostRecentOccurrenceOrder rest := by
        simp [mostRecentOccurrenceOrder, hb]
      rw [hmro]
      have hfd : List.filter (fun e => !rest.any (fun x => x.longf == e.longf)) [d] = [] := by
        simp [hb]
      rw [hfd, List.append_nil]
      congr 1
      apply List.filter_congr
      intro x _
      by_cases hxd : x.longf = d.longf
      · simp [hxd]
      · have h1 : (x.longf != d.longf) = true := bne_iff_ne.mpr hxd
        have h2 : (d.longf == x.longf) = false := beq_eq_false_iff_ne.mpr (Ne.symm hxd)
        simp [List.any_cons, h1, h2]
    · have hb' : rest.any (fun e => e.longf == d.longf) = false := by
        simpa using hb
      have hmro : mostRecentOccurrenceOrder (d :: rest) =
          d :: mostRecentOccurrenceOrder rest := by
        simp [mostRecentOccurrenceOrder, hb']
      rw [hmro]
      have hfd : List.filter (fun e => !rest.any (fun x => x.longf == e.longf)) [d] = [d] := by
        simp [hb']
      rw [hfd, List.append_assoc]
      congr 1
      · apply List.filter_congr
        intro x _
        by_cases hxd : x.longf = d.longf
        · simp [hxd]
        · have h1 : (x.longf != d.longf) = true := bne_iff_ne.mpr hxd
          have h2 : (d.longf == x.longf) = false := beq_eq_false_iff_ne.mpr (Ne.symm hxd)
          simp [List.any_cons, h1, h2]

theorem mem_mostRecentOccurrenceOrder :
    ∀ (seq : List ActiveFlag) (e : ActiveFlag),
      e ∈ mostRecentOccurrenceOrder seq → e ∈ seq := by
  intro seq
  induction seq with
  | nil =>
    intro e he
    simp [mostRecentOccurrenceOrder] at he
  | cons d rest ih =>
    intro e he
    by_cases hb : rest.any (fun x => x.longf == d.longf) = true
    · rw [show mostRecentOccurrenceOrder (d :: rest) = mostRecentOccurrenceOrder rest by
        simp [mostRecentOccurrenceOrder, hb]] at he
      exact List.mem_cons_of_mem d (ih e he)
    · rw [show mostRecentOccurrenceOrder (d :: rest) = d :: mostRecentOccurrenceOrder rest by
        simp [mostRecentOccurrenceOrder]; simpa using hb] at he
      rcases List.mem_cons.mp he with h | h
      · exact h ▸ List.mem_cons_self d rest
      · exact List.mem_cons_of_mem d (ih e h)

theorem nodup_longfs_mostRecentOccurrenceOrder :
    ∀ seq : List ActiveFlag, (longfs (mostRecentOccurrenceOrder seq)).Nodup := by
  intro seq
  induction seq with
  | nil => simp [mostRecentOccurrenceOrder, longfs]
  | cons d rest ih =>
    by_cases hb : rest.any (fun x => x.longf == d.longf) = true
    · rw [show mostRecentOccurrenceOrder (d :: rest) = mostRecentOccurrenceOrder rest by
        simp [mostRecentOccurrenceOrder, hb]]
      exact ih
    · rw [show mostRecentOccurrenceOrder (d :: rest) = d :: mostRecentOccurrenceOrder rest by
        simp [mostRecentOccurrenceOrder]; simpa using hb]
      rw [longfs, List.map_cons, List.nodup_cons]
      refine ⟨?_, ih⟩
      intro hmem
      obtain ⟨a, ha, haeq⟩ := List.mem_map.mp hmem
      have hamem : a ∈ rest := mem_mostRecentOccurrenceOrder rest a ha
      have : rest.any (fun x => x.longf == d.longf) = true := by
        refine List.any_eq_true.mpr ⟨a, hamem, ?_⟩
        simp [haeq]
      exact hb this

/-- A successful parse from a fresh state yields exactly the most-recent-
    occurrence deduplication of the recorded activation sequence. -/
theorem parseLoop_active_mostRecent (flags : List FlagSpec) (l : List String)
    (st'' : ParserState) (hp : parseLoop flags l ⟨[], []⟩ = (st'', Option.none)) :
    st''.active_flags = mostRecentOccurrenceOrder (activationsInOrder flags l) := by
  have h1 := parseLoop_active_foldl flags l ⟨[], []⟩ st'' hp
  rw [h1]
  rw [foldl_recordFlag (activationsInOrder flags l) [] (by simp [longfs])]
  simp

/-! ## Successful prefixes compose (needed for the missing-input analysis) -/

theorem parseLoop_append (flags : List FlagSpec) :
    ∀ (pre suf : List String) (st st' : ParserState),
      parseLoop flags pre st = (st', Option.none) →
      parseLoop flags (pre ++ suf) st = parseLoop flags suf st' := by
  have H : ∀ (n : Nat) (pre suf : List String) (st st' : ParserState), pre.length ≤ n →
      parseLoop flags pre st = (st', Option.none) →
      parseLoop flags (pre ++ suf) st = parseLoop flags suf st' := by
    intro n
    induction n with
    | zero =>
      intro pre suf st st' hlen hp
      have hl : pre = [] := List.eq_nil_of_length_eq_zero (Nat.le_zero.mp hlen)
      subst hl
      rw [parseLoop_nil] at hp
      cases hp
      rfl
    | succ n ih =>
      intro pre suf st st' hlen hp
      match pre with
      | [] =>
        rw [parseLoop_nil] at hp
        cases hp
        rfl
      | tok :: rest =>
        cases hfind : findFlag flags tok with
        | none =>
          rw [parseLoop_cons_nomatch flags tok rest st hfind] at hp
          rw [List.cons_append, parseLoop_cons_nomatch flags tok (rest ++ suf) st hfind]
          exact ih rest suf ⟨st.active_flags, st.additional_args ++ [tok]⟩ st'
            (Nat.le_of_succ_le_succ hlen) hp
        | some m =>
          by_cases hi : m.input > FLAG_INPUT_IGNORE
          · match rest with
            | [] =>
              rw [parseLoop_cons_missing flags tok st m hfind hi] at hp
              exact absurd (congrArg Prod.snd hp) (by simp)
            | v :: rest2 =>
              cases hc : coerceInput m v tok with
              | error e =>
                rw [parseLoop_cons_coerce_error flags tok v rest2 st m e hfind hi hc] at hp
                exact absurd (congrArg Prod.snd hp) (by simp)
              | ok val =>
                rw [parseLoop_cons_coerce_ok flags tok v rest2 st m val hfind hi hc] at hp
                rw [List.cons_append, List.cons_append,
                  parseLoop_cons_coerce_ok flags tok v (rest2 ++ suf) st m val hfind hi hc]
                have hlen2 : rest2.length ≤ n := by
                  simp only [List.length_cons] at hlen
                  omega
                exact ih rest2 suf _ st' hlen2 hp
          · rw [parseLoop_cons_noinput flags tok rest st m hfind hi] at hp
            rw [List.cons_append, parseLoop_cons_noinput flags tok (rest ++ suf) st m hfind hi]
            exact ih rest suf _ st' (Nat.le_of_succ_le_succ hlen) hp
  intro pre suf st st' hp
  exact H pre.length pre suf st st' (Nat.le_refl _) hp

/-! ## Concrete registries used by examples and witnesses -/

/-- A registered no-input flag "--a". -/
def demoFlagA : FlagSpec := ⟨"--a", Option.none, "", FLAG_INPUT_IGNORE, Option.none⟩

/-- A registered int-input flag "--b". -/
def demoFlagBInt : FlagSpec := ⟨"--b", Option.none, "", FLAG_INPUT_INT, Option.none⟩

/-- A registered int-input flag "--f". -/
def demoFlagInt : FlagSpec := ⟨"--f", Option.some "-f", "", FLAG_INPUT_INT, Option.none⟩

/-- A registered float-input flag "--g". -/
def demoFlagFloat : FlagSpec := ⟨"--g", Option.some "-g", "", FLAG_INPUT_FLOAT, Option.none⟩

/-! ## Evaluation facts for the coercion chain -/

theorem beq_int_str_false : (FLAG_INPUT_INT == FLAG_INPUT_STR) = false := by decide

theorem beq_int_int_true : (FLAG_INPUT_INT == FLAG_INPUT_INT) = true := by decide

theorem beq_float_str_false : (FLAG_INPUT_FLOAT == FLAG_INPUT_STR) = false := by decide

theorem beq_float_int_false : (FLAG_INPUT_FLOAT == FLAG_INPUT_INT) = false := by decide

theorem beq_float_float_true : (FLAG_INPUT_FLOAT == FLAG_INPUT_FLOAT) = true := by decide

theorem pyInt_42 : pyInt "42" = Option.some 42 := by decide

theorem pyInt_notanumber : pyInt "notanumber" = Option.none := by decide

theorem pyFloat_42 : pyFloat "42" = Option.some 42 := by decide

theorem pyFloat_notanumber : pyFloat "notanumber" = Option.none := by decide

/-! ## Claim theorems -/

/-- C1: when `parse_line` records an activation whose `longName` already
    appears in `activeFlags`, the prior entry is removed and the new one
    appended, so a successful parse lists each activated `longName` exactly
    once, in most-recent-occurrence order; in particular parsing
    `["--a", "--a"]` against a registered no-input flag `--a` yields
    `activeFlags` of length 1. -/
theorem parse_last_occurrence_wins :
    (∀ (flags : List FlagSpec) (l : List String) (st'' : ParserState),
        parseLoop flags l ⟨[], []⟩ = (st'', Option.none) →
        st''.active_flags = mostRecentOccurrenceOrder (activationsInOrder flags l) ∧
        (longfs st''.active_flags).Nodup) ∧
    (parseLoop [demoFlagA] ["--a", "--a"] ⟨[], []⟩).1.active_flags.length = 1 := by
  constructor
  · intro flags l st'' hp
    have h := parseLoop_active_mostRecent flags l st'' hp
    refine ⟨h, ?_⟩
    rw [h]
    exact nodup_longfs_mostRecentOccurrenceOrder _
  · decide

/-- Witness for C1: a parse with a repeated flag evaluated at a concrete
    registry; the duplicated `--a` is listed once, after `--b`. -/
theorem parse_last_occurrence_wins_witness :
    parseLoop [demoFlagA, demoFlagBInt] ["--a", "--b", "3", "--a"] ⟨[], []⟩ =
      (⟨[⟨"--b", "", FlagValue.int 3, Option.none⟩,
         ⟨"--a", "", FlagValue.none, Option.none⟩], []⟩, Option.none) ∧
    (⟨[⟨"--b", "", FlagValue.int 3, Option.none⟩,
       ⟨"--a", "", FlagValue.none, Option.none⟩], []⟩ : ParserState).active_flags =
      mostRecentOccurrenceOrder
        (activationsInOrder [demoFlagA, demoFlagBInt] ["--a", "--b", "3", "--a"]) ∧
    (longfs [⟨"--b", "", FlagValue.int 3, Option.none⟩,
             ⟨"--a", "", FlagValue.none, Option.none⟩]).Nodup := by
  have h := parse_last_occurrence_wins.1 [demoFlagA, demoFlagBInt]
    ["--a", "--b", "3", "--a"]
    ⟨[⟨"--b", "", FlagValue.int 3, Option.none⟩,
      ⟨"--a", "", FlagValue.none, Option.none⟩], []⟩ (by decide)
  exact ⟨by decide, h.1, h.2⟩

/-- C2 counterexample: parsing `["--a", "--b"]` where `--b` requires an int
    aborts with `MissingFlagInput`, yet the `--a` activation recorded before
    the failing token remains in the parser state and `get_active_flags`
    returns it — the partial activations are not discarded. -/
theorem parse_missing_input_keeps_state_cex :
    parse_line "prog" [demoFlagA, demoFlagBInt] ["--a", "--b"] false =
      Option.some (⟨[⟨"--a", "", FlagValue.none, Option.none⟩], []⟩,
        Option.some (ParseError.missingFlagInput "--b" "int")) ∧
    get_active_flags
        (⟨[⟨"--a", "", FlagValue.none, Option.none⟩], []⟩ : ParserState) ≠ [] := by
  constructor
  · decide
  · decide

/-- C2 (amended): a flag requiring input as the final token fails the parse
    immediately with `MissingFlagInput` naming the flag token and the
    expected kind, and the raised error aborts the call (no result is
    returned); however the activations accumulated before the failing token
    remain stored in the parser state and `get_active_flags` exposes them. -/
theorem parse_missing_input_aborts (flags : List FlagSpec) (pre : List String)
    (tok : String) (m : FlagSpec) (st' : ParserState)
    (hfind : findFlag flags tok = Option.some m)
    (hi : m.input > FLAG_INPUT_IGNORE)
    (hpre : parseLoop flags pre ⟨[], []⟩ = (st', Option.none)) :
    parseLoop flags (pre ++ [tok]) ⟨[], []⟩ =
      (st', Option.some (ParseError.missingFlagInput tok (inputTypeName m.input))) ∧
    get_active_flags (parseLoop flags (pre ++ [tok]) ⟨[], []⟩).1 = get_active_flags st' := by
  have h := parseLoop_append flags pre [tok] ⟨[], []⟩ st' hpre
  rw [h, parseLoop_cons_missing flags tok st' m hfind hi]
  exact ⟨rfl, rfl⟩

/-- Witness for C2 (amended) at a concrete registry and token list. -/
theorem parse_missing_input_aborts_witness :
    parseLoop [demoFlagA, demoFlagBInt] (["--a"] ++ ["--b"]) ⟨[], []⟩ =
      (⟨[⟨"--a", "", FlagValue.none, Option.none⟩], []⟩,
        Option.some (ParseError.missingFlagInput "--b" "int")) ∧
    get_active_flags
        (parseLoop [demoFlagA, demoFlagBInt] (["--a"] ++ ["--b"]) ⟨[], []⟩).1 =
      get_active_flags (⟨[⟨"--a", "", FlagValue.none, Option.none⟩], []⟩ : ParserState) :=
  parse_missing_input_aborts [demoFlagA, demoFlagBInt] ["--a"] "--b" demoFlagBInt
    ⟨[⟨"--a", "", FlagValue.none, Option.none⟩], []⟩ (by decide) (by decide) (by decide)

/-- C9: for any registry entry matched first by a token, an Int or Float
    input kind coerces the following token "42" to the numeric value 42 of
    the matching type, and the non-numeric token "notanumber" fails the
    parse with `InvalidFlagInput` naming the offending token, the matched
    flag token, and the expected kind. -/
theorem parse_numeric_coercion (flags : List FlagSpec) (tok : String) (m : FlagSpec)
    (hfind : findFlag flags tok = Option.some m) :
    (m.input = FLAG_INPUT_INT →
      parseLoop flags [tok, "42"] ⟨[], []⟩ =
        (⟨[⟨m.longf, m.description, FlagValue.int 42, m.method⟩], []⟩, Option.none) ∧
      parseLoop flags [tok, "notanumber"] ⟨[], []⟩ =
        (⟨[], []⟩, Option.some (ParseError.invalidFlagInput "notanumber" tok "int"))) ∧
    (m.input = FLAG_INPUT_FLOAT →
      parseLoop flags [tok, "42"] ⟨[], []⟩ =
        (⟨[⟨m.longf, m.description, FlagValue.float 42, m.method⟩], []⟩, Option.none) ∧
      parseLoop flags [tok, "notanumber"] ⟨[], []⟩ =
        (⟨[], []⟩, Option.some (ParseError.invalidFlagInput "notanumber" tok "float"))) := by
  constructor
  · intro hm
    have hi : m.input > FLAG_INPUT_IGNORE := by rw [hm]; decide
    have hc : coerceInput m "42" tok = .ok (.int 42) := by
      simp [coerceInput, hm, beq_int_str_false, beq_int_int_true, pyInt_42]
    have hc' : coerceInput m "notanumber" tok =
        .error (.invalidFlagInput "notanumber" tok "int") := by
      simp [coerceInput, hm, beq_int_str_false, beq_int_int_true, pyInt_notanumber]
    constructor
    · rw [parseLoop_cons_coerce_ok flags tok "42" [] ⟨[], []⟩ m (.int 42) hfind hi hc]
      rfl
    · exact parseLoop_cons_coerce_error flags tok "notanumber" [] ⟨[], []⟩ m _ hfind hi hc'
  · intro hm
    have hi : m.input > FLAG_INPUT_IGNORE := by rw [hm]; decide
    have hc : coerceInput m "42" tok = .ok (.float 42) := by
      simp [coerceInput, hm, beq_float_str_false, beq_float_int_false,
        beq_float_float_true, pyFloat_42]
    have hc' : coerceInput m "notanumber" tok =
        .error (.invalidFlagInput "notanumber" tok "float") := by
      simp [coerceInput, hm, beq_float_str_false, beq_float_int_false,
        beq_float_float_true, pyFloat_notanumber]
    constructor
    · rw [parseLoop_cons_coerce_ok flags tok "42" [] ⟨[], []⟩ m (.float 42) hfind hi hc]
      rfl
    · exact parseLoop_cons_coerce_error flags tok "notanumber" [] ⟨[], []⟩ m _ hfind hi hc'

/-- Witness for C9: the Int flag `--f` and the Float flag `--g` evaluated on
    the tokens "42" and "notanumber". -/
theorem parse_numeric_coercion_witness :
    parseLoop [demoFlagInt] ["--f", "42"] ⟨[], []⟩ =
      (⟨[⟨"--f", "", FlagValue.int 42, Option.none⟩], []⟩, Option.none) ∧
    parseLoop [demoFlagInt] ["--f", "notanumber"] ⟨[], []⟩ =
      (⟨[], []⟩, Option.some (ParseError.invalidFlagInput "notanumber" "--f" "int")) ∧
    parseLoop [demoFlagFloat] ["--g", "42"] ⟨[], []⟩ =
      (⟨[⟨"--g", "", FlagValue.float 42, Option.none⟩], []⟩, Option.none) ∧
    parseLoop [demoFlagFloat] ["--g", "notanumber"] ⟨[], []⟩ =
      (⟨[], []⟩, Option.some (ParseError.invalidFlagInput "notanumber" "--g" "float")) := by
  have hI := (parse_numeric_coercion [demoFlagInt] "--f" demoFlagInt rfl).1 rfl
  have hF := (parse_numeric_coercion [demoFlagFloat] "--g" demoFlagFloat rfl).2 rfl
  exact ⟨hI.1, hI.2, hF.1, hF.2⟩

/-- C3 (code-bug evidence): for a console line whose matched command has an
    activated flag registered without a handler, `Console_Program.run`
    calls `map['method']()` with `None` and raises `TypeError` instead of
    falling back to `Console.default_flag_handler` — even though the startup
    dispatch path does fall back to the default handler for the very same
    activation, as `default_flag_handler`'s own docstring promises for both
    surfaces. -/
theorem console_dispatch_none_handler_bug :
    consoleDispatch "build" [⟨"--x", "", FlagValue.none, Option.none⟩] =
      ([], Option.some "TypeError: NoneType object is not callable") ∧
    terminalDispatch [⟨"--x", "", FlagValue.none, Option.none⟩] =
      .ok [Event.defaultHandlerInvoked "--x"] ∧
    consoleDispatch "build"
        [⟨"--y", "", FlagValue.none, Option.some 3⟩,
         ⟨"--z", "", FlagValue.none, Option.some 4⟩] =
      ([Event.flagHandlerInvoked "--y" 3, Event.flagHandlerInvoked "--z" 4,
        Event.primaryInvoked "build"], Option.none) := by
  refine ⟨rfl, rfl, rfl⟩

/-! ## The startup help scan keeps the last "--help" entry -/

theorem lastHelpEntry_foldl_no_help :
    ∀ (rest : List ActiveFlag) (init : Option ActiveFlag),
      (∀ x ∈ rest, x.longf ≠ "--help") →
      rest.foldl (fun acc m => if m.longf == "--help" then Option.some m else acc) init =
        init := by
  intro rest
  induction rest with
  | nil => intro init _; rfl
  | cons d rest' ih =>
    intro init hno
    rw [List.foldl_cons]
    have hd : (d.longf == "--help") = false :=
      beq_eq_false_iff_ne.mpr (hno d (List.mem_cons_self d rest'))
    rw [hd]
    simp only [Bool.false_eq_true, if_false]
    exact ih init (fun x hx => hno x (List.mem_cons_of_mem d hx))

theorem lastHelpEntry_foldl_unique :
    ∀ (rest : List ActiveFlag) (init : Option ActiveFlag) (m : ActiveFlag),
      m ∈ rest → m.longf = "--help" →
      (∀ m' ∈ rest, m'.longf = "--help" → m' = m) →
      rest.foldl (fun acc m => if m.longf == "--help" then Option.some m else acc) init =
        Option.some m := by
  intro rest
  induction rest with
  | nil =>
    intro init m hmem
    exact absurd hmem (List.not_mem_nil m)
  | cons d rest' ih =>
    intro init m hmem hlongf huniq
    rw [List.foldl_cons]
    by_cases hr : ∀ x ∈ rest', x.longf ≠ "--help"
    · have hmd : m = d := by
        rcases List.mem_cons.mp hmem with h | h
        · exact h
        · exact absurd hlongf (hr m h)
      subst hmd
      have hd : (m.longf == "--help") = true := beq_iff_eq.mpr hlongf
      rw [hd]
      simp only [if_true]
      exact lastHelpEntry_foldl_no_help rest' (Option.some m) hr
    · push_neg at hr
      obtain ⟨x, hx, hxh⟩ := hr
      have hxm : x = m := huniq x (List.mem_cons_of_mem d hx) hxh
      have hmx : m ∈ rest' := hxm ▸ hx
      exact ih _ m hmx hlongf (fun m' hm' hh => huniq m' (List.mem_cons_of_mem d hm') hh)

theorem lastHelpEntry_eq_of_unique (active : List ActiveFlag) (m : ActiveFlag)
    (hmem : m ∈ active) (hlongf : m.longf = "--help")
    (huniq : ∀ m' ∈ active, m'.longf = "--help" → m' = m) :
    lastHelpEntry active = Option.some m := by
  rw [lastHelpEntry]
  exact lastHelpEntry_foldl_unique active Option.none m hmem hlongf huniq

/-- C4: during startup flag processing, if the (unique) activation with
    `longName` "--help" is among the parsed activeFlags and carries its
    handler, that handler is invoked and the process exits with status 0,
    with no other activated flag's handler (user-registered or default)
    running — even when other flags also matched on the same startup
    line. -/
theorem startup_help_short_circuit (active : List ActiveFlag) (m : ActiveFlag) (h : Nat)
    (hmem : m ∈ active) (hlongf : m.longf = "--help")
    (huniq : ∀ m' ∈ active, m'.longf = "--help" → m' = m)
    (hm : m.method = Option.some h) :
    terminalDispatch active = .ok [Event.helpInvoked h, Event.processExit 0] := by
  rw [terminalDispatch, lastHelpEntry_eq_of_unique active m hmem hlongf huniq]
  simp [hm]

/-- Witness for C4: a startup line activating both "--help" and "--verbose";
    only the help handler runs, then the process exits 0. -/
theorem startup_help_short_circuit_witness :
    terminalDispatch
        [⟨"--help", "Display available flag options", FlagValue.none, Option.some 0⟩,
         ⟨"--verbose", "", FlagValue.none, Option.some 5⟩] =
      .ok [Event.helpInvoked 0, Event.processExit 0] :=
  startup_help_short_circuit
    [⟨"--help", "Display available flag options", FlagValue.none, Option.some 0⟩,
     ⟨"--verbose", "", FlagValue.none, Option.some 5⟩]
    ⟨"--help", "Display available flag options", FlagValue.none, Option.some 0⟩ 0
    (by decide) (by decide) (by decide) (by decide)

/-- C5 counterexample: `console_start` in threaded (background) mode starts
    the worker thread but evaluates to Python `None` — the caller receives
    no cancellation handle, contradicting "the caller receives a non-null
    value". -/
theorem console_start_returns_none_cex :
    (console_start true true).1 = StartMode.startedThread true ∧
    (console_start true true).2 = Option.none := ⟨rfl, rfl⟩

/-- C5 (amended): in threaded mode `console_start` starts the background
    worker (with the given daemon setting) and returns immediately, but the
    returned value is `None`: no cancellation handle is produced. -/
theorem console_start_threaded_returns_immediately :
    ∀ daemon : Bool,
      console_start true daemon = (StartMode.startedThread daemon, Option.none) :=
  fun _ => rfl

/-- C7 counterexample: `add_flag` with an empty `longName` does not fail —
    the empty string is normalized to "--" and the flag is appended to the
    registry. -/
theorem add_flag_empty_longf_cex :
    add_flag "" Option.none "desc" FLAG_INPUT_IGNORE Option.none =
      .ok ⟨"--", Option.none, "desc", FLAG_INPUT_IGNORE, Option.none⟩ ∧
    Command_add_flag [] "" Option.none "desc" FLAG_INPUT_IGNORE Option.none =
      .ok [⟨"--", Option.none, "desc", FLAG_INPUT_IGNORE, Option.none⟩] := ⟨rfl, rfl⟩

/-- C7 (amended): registration with no short name always succeeds, with
    `longName` normalized to carry the "--" marker (an empty `longName` is
    normalized to "--", not rejected); for a nonempty short name,
    registration fails with the `InvalidFlagDefinition` validation error
    exactly when the normalized short name is not one leading marker plus
    one character (length two), and otherwise the flag is appended. -/
theorem add_flag_validation (longf s desc : String) (i : Int) (mth : Option Nat)
    (hs : s ≠ "") :
    add_flag longf Option.none desc i mth =
      .ok ⟨if String.take longf 2 != "--" then "--" ++ longf else longf,
           Option.none, desc, i, mth⟩ ∧
    ((if s.front != '-' then "-" ++ s else s).length ≠ 2 →
      add_flag longf (Option.some s) desc i mth = .error .invalidShortf) ∧
    ((if s.front != '-' then "-" ++ s else s).length = 2 →
      add_flag longf (Option.some s) desc i mth =
        .ok ⟨if String.take longf 2 != "--" then "--" ++ longf else longf,
             Option.some (if s.front != '-' then "-" ++ s else s), desc, i, mth⟩) := by
  have hlen : (s.length == 0) = false := by
    refine beq_eq_false_iff_ne.mpr ?_
    intro h0
    refine hs (String.ext ?_)
    have hd : s.data.length = 0 := by rw [String.length_data]; exact h0
    exact List.length_eq_zero.mp hd
  have hsw : (if s.front != '-' then "-" ++ s else s) =
      (if s.front = '-' then s else "-" ++ s) := by
    by_cases hf : s.front = '-'
    · simp [hf]
    · simp [hf]
  refine ⟨rfl, ?_, ?_⟩
  · intro hne
    rw [hsw] at hne
    simp [add_flag, hlen, hne]
  · intro heq
    rw [hsw] at heq
    simp [add_flag, hlen, heq, hsw]

/-- Witness for C7 (amended): empty long name accepted and normalized;
    short name "ab" (normalized "-ab") rejected; short name "y"
    (normalized "-y") accepted. -/
theorem add_flag_validation_witness :
    add_flag "" Option.none "d" 0 Option.none =
      .ok ⟨"--", Option.none, "d", 0, Option.none⟩ ∧
    add_flag "x" (Option.some "ab") "d" 0 Option.none = .error .invalidShortf ∧
    add_flag "x" (Option.some "y") "d" 0 Option.none =
      .ok ⟨"--x", Option.some "-y", "d", 0, Option.none⟩ := by
  have h1 := add_flag_validation "" "ab" "d" 0 Option.none (by decide)
  have h2 := add_flag_validation "x" "ab" "d" 0 Option.none (by decide)
  have h3 := add_flag_validation "x" "y" "d" 0 Option.none (by decide)
  refine ⟨?_, ?_, ?_⟩
  · rw [h1.1]
    rfl
  · exact h2.2.1 (by decide)
  · rw [h3.2.2 (by decide)]
    rfl

/-- C8: the startup guard transitions false to true exactly once; after a
    successful `terminal_process_flags`, calling it again fails with the
    `AlreadyProcessed` programming error, and so does any attempt to add a
    flag to the terminal Command's registry — neither is silently
    ignored. -/
theorem startup_guard_one_shot (st : ConsoleState)
    (h : st.processed_flag_options = false) :
    terminal_process_flags st = .ok { st with processed_flag_options := true } ∧
    (∀ st₂, terminal_process_flags st = .ok st₂ →
      st₂.processed_flag_options = true ∧
      terminal_process_flags st₂ = .error .alreadyProcessed ∧
      (∀ longf shortf desc i mth,
        terminal_add_flag st₂ longf shortf desc i mth = .error .alreadyProcessed)) := by
  have h1 : terminal_process_flags st = .ok { st with processed_flag_options := true } := by
    simp [terminal_process_flags, h]
  refine ⟨h1, ?_⟩
  intro st₂ h₂
  rw [h1] at h₂
  cases h₂
  refine ⟨rfl, ?_, ?_⟩
  · simp [terminal_process_flags]
  · intro longf shortf desc i mth
    simp [terminal_add_flag]

/-- Witness for C8 at the fresh console state. -/
theorem startup_guard_one_shot_witness :
    terminal_process_flags ⟨[], false⟩ = .ok ⟨[], true⟩ ∧
    terminal_process_flags ⟨[], true⟩ = .error .alreadyProcessed ∧
    terminal_add_flag ⟨[], true⟩ "--x" Option.none "" 0 Option.none =
      .error .alreadyProcessed := by
  have h := startup_guard_one_shot ⟨[], false⟩ rfl
  have h2 := h.2 ⟨[], true⟩ h.1
  exact ⟨h.1, h2.2.1, h2.2.2 "--x" Option.none "" 0 Option.none⟩

/-- C10: every Command's registry starts with the built-in help flag
    (longName "--help", shortName "-h") as its first entry, and since the
    parser's scan stops at the first structural match in registry order, the
    tokens "--help" and "-h" always resolve to this built-in entry no matter
    what flags a user appends afterwards. -/
theorem help_flag_first_match (added : List FlagSpec) :
    commandInitFlags = [helpFlag] ∧
    (commandInitFlags ++ added).head? = Option.some helpFlag ∧
    findFlag (commandInitFlags ++ added) "--help" = Option.some helpFlag ∧
    findFlag (commandInitFlags ++ added) "-h" = Option.some helpFlag := by
  refine ⟨rfl, rfl, rfl, rfl⟩

end ConsoleSpec
